import Mathlib

/-

Formal model of the per-user serialized request-processing core of an
LM Studio Telegram bot (src/bot.py), together with theorems about its
dispatcher, worker loop, history trimming, and message storage.

The embedding is shallow: the Python functions are translated into Lean
definitions over explicit state.  External effects (the Telegram gateway,
the LM Studio HTTP endpoint, the wall clock) are threaded in as oracle
parameters, and the SQLite database is modelled as an explicit record.
Because all relevant processing concerns a single user id (the handlers
key all shared state by the id of the sender), the state is modelled
per-user.

-/

set_option autoImplicit false

namespace Bot

/-- A queued text request, as built by the chat handler (bot.py lines
279-283): the message text, the Telegram message id used for the reply,
and the chat id. -/
structure Req where
  text : String
  messageId : Nat
  chatId : Nat
deriving DecidableEq, Repr

/-- Result of a call into an external service: either a value, or an
exception raised by the call (network error, HTTP error, timeout,
rejected message format, ...). -/
inductive CallRes (α : Type) where
  | ok (val : α)
  | exn
deriving DecidableEq, Repr

/-- True when the call returned normally. -/
def CallRes.isOk {α : Type} : CallRes α → Bool
  | .ok _ => true
  | .exn => false

/-- The value of a successful call, with a default for the exceptional
case (only used to state expected results under an isOk hypothesis). -/
def CallRes.getStr : CallRes String → String
  | .ok a => a
  | .exn => ""

/-- The handle of a successful send, with a default for the exceptional
case (only used to state expected results under an isOk hypothesis). -/
def CallRes.getHandle : CallRes Nat → Nat
  | .ok h => h
  | .exn => 0

/-- One row of the messages table (bot.py lines 100-107): conversation
id, role, content, and the integer timestamp written by append_message. -/
structure Row where
  cid : Nat
  role : String
  content : String
  ts : Nat
deriving DecidableEq, Repr

/-- A message as returned by get_messages (bot.py lines 159-165): the
role and content columns. -/
structure Msg where
  role : String
  content : String
deriving DecidableEq, Repr

/-- The database state relevant to one user: the default_model and
active_conversation_id columns of the user_settings row (bot.py lines
86-91), the AUTOINCREMENT counter and rows of the conversations table,
and the rows of the messages table in insertion (rowid) order. -/
structure DB where
  defaultModel : String
  activeCid : Option Nat
  nextCid : Nat
  conversations : List (Nat × String)
  messages : List Row
deriving DecidableEq, Repr

/-- DEFAULT_MODEL (bot.py line 47). -/
def DEFAULT_MODEL : String := "llava"

/-- TOKEN_THRESHOLD (bot.py line 48), the character budget of the
history trimmer. -/
def TOKEN_THRESHOLD : Nat := 12000

/-- A fresh database: settings row with the default model and no active
conversation, empty tables, AUTOINCREMENT starting at 1. -/
def emptyDB : DB :=
  { defaultModel := DEFAULT_MODEL
    activeCid := none
    nextCid := 1
    conversations := []
    messages := [] }

/-- get_settings (bot.py lines 124-130): returns the default model and
the active conversation id of the user's settings row. -/
def get_settings (db : DB) : String × Option Nat :=
  (db.defaultModel, db.activeCid)

/-- set_active_conversation (bot.py lines 133-138). -/
def set_active_conversation (db : DB) (cid : Nat) : DB :=
  { db with activeCid := some cid }

/-- create_conversation (bot.py lines 141-148): inserts a conversations
row and returns its AUTOINCREMENT id. -/
def create_conversation (db : DB) (model : String) : Nat × DB :=
  (db.nextCid,
   { db with
      nextCid := db.nextCid + 1
      conversations := db.conversations ++ [(db.nextCid, model)] })

/-- append_message (bot.py lines 151-156): inserts a messages row at the
end of the table; the timestamp int(time.time()) is supplied by the
caller as a clock oracle. -/
def append_message (db : DB) (cid : Nat) (role content : String) (ts : Nat) : DB :=
  { db with messages := db.messages ++ [⟨cid, role, content, ts⟩] }

/-- The rows of one conversation, in insertion order: the WHERE
conversation_id=? filter of get_messages (bot.py line 162). -/
def filterConv (db : DB) (cid : Nat) : List Row :=
  db.messages.filter fun r => r.cid == cid

/-- A list of rows in non-decreasing timestamp order. -/
def tsSorted (l : List Row) : Prop :=
  l.Pairwise fun a b => a.ts ≤ b.ts

/-- SQL semantics of get_messages (bot.py lines 159-165): SELECT role,
content ... WHERE conversation_id=? ORDER BY ts.  ORDER BY alone
determines the result only up to reordering of rows with equal keys,
so the result is specified relationally: any permutation of the
conversation's rows that is sorted by ts, projected to role/content. -/
def get_messages_spec (db : DB) (cid : Nat) (out : List Msg) : Prop :=
  ∃ rows : List Row,
    rows.Perm (filterConv db cid) ∧ tsSorted rows ∧
    out = rows.map fun r => ⟨r.role, r.content⟩

/-- Executable refinement of get_messages used inside the worker model:
one particular ts-sorted permutation of the conversation's rows (the
value only feeds the backend call, whose reply is an oracle, so the
choice among tie-orderings does not affect any theorem below). -/
def get_messages (db : DB) (cid : Nat) : List Msg :=
  (List.insertionSort (fun a b => a.ts ≤ b.ts) (filterConv db cid)).map
    fun r => ⟨r.role, r.content⟩

/-- Inner loop of trim_messages (bot.py lines 186-192): walk the
reversed history accumulating content lengths, and stop (dropping the
rest) at the first message that pushes the total over the budget. -/
def trim_go (maxChars : Nat) : List Msg → Nat → List Msg
  | [], _ => []
  | m :: rest, total =>
    let total' := total + m.content.length
    if total' > maxChars then []
    else m :: trim_go maxChars rest total'

/-- trim_messages (bot.py lines 185-193): iterate over reversed(messages)
with a running total, break on budget overflow, and reverse the kept
messages back to chronological order. -/
def trim_messages (messages : List Msg) (maxChars : Nat) : List Msg :=
  (trim_go maxChars messages.reverse 0).reverse

/-- Total content length of a list of messages. -/
def csum (l : List Msg) : Nat :=
  (l.map fun m => m.content.length).sum

/-- An observable interaction with the Telegram gateway: a successful
send (returning a message handle), a send whose await raised, a
successful edit, or an edit whose await raised. -/
inductive GatewayEvent where
  | sent (chatId : Nat) (text : String) (replyTo : Option Nat) (handle : Nat)
  | sendFailed (chatId : Nat) (text : String) (replyTo : Option Nat)
  | edited (handle : Nat) (text : String)
  | editFailed (handle : Nat) (text : String)
deriving DecidableEq, Repr

/-- The provisional acknowledgment text sent by the worker (bot.py
line 316). -/
def thinkingText : String := "🤖 Thinking..."

/-- The courtesy notice sent by the chat handler while a worker is
active (bot.py lines 286-289). -/
def busyText : String :=
  "⏳ I’m already answering a previous question.\nI’ll respond to this one right after."

/-- Per-iteration oracle for one pass of the worker loop: the clock
values written into the two message rows, and the outcomes of the three
external calls the iteration makes (the provisional send, the LM Studio
chat completion, the final edit). -/
structure IterScript where
  tsUser : Nat
  sendRes : CallRes Nat
  backendRes : CallRes String
  tsAsst : Nat
  editRes : CallRes Unit

/-- Result state of a worker drain: the remaining queue, the database,
the gateway events emitted so far, and the chat-completion calls made
(trimmed history and model), in order. -/
structure WRun where
  queue : List Req
  db : DB
  events : List GatewayEvent
  calls : List (List Msg × String)

/-- Conversation resolution inside the worker loop (bot.py lines
306-310): read the settings; if there is no active conversation, create
one with the user's default model and record it as active. -/
def resolve_cid (db : DB) : Nat × DB :=
  let s := get_settings db
  match s.2 with
  | some c => (c, db)
  | none =>
    let cdb := create_conversation db s.1
    (cdb.1, set_active_conversation cdb.2 cdb.1)

/-- The while loop of process_user_queue (bot.py lines 299-329), with
the iteration counter indexing the oracle.  Each iteration pops the
head of the queue, resolves the conversation, persists the user
message, sends the provisional acknowledgment, calls the backend on the
trimmed history, persists the answer, and edits the acknowledgment.
There is no except clause in the source, so any raising call ends the
whole drain: the function returns the un-drained remainder of the queue
and true for an escaped exception. -/
def drain (scr : Nat → IterScript) :
    List Req → Nat → DB → List GatewayEvent → List (List Msg × String) → WRun × Bool
  | [], _, db, ev, cs => (⟨[], db, ev, cs⟩, false)
  | r :: rest, i, db, ev, cs =>
    let sc := scr i
    let s := get_settings db
    let cd := resolve_cid db
    let db2 := append_message cd.2 cd.1 "user" r.text sc.tsUser
    match sc.sendRes with
    | .exn => (⟨rest, db2, ev ++ [.sendFailed r.chatId thinkingText (some r.messageId)], cs⟩, true)
    | .ok h =>
      let ev1 := ev ++ [.sent r.chatId thinkingText (some r.messageId) h]
      let cs1 := cs ++ [(trim_messages (get_messages db2 cd.1) TOKEN_THRESHOLD, s.1)]
      match sc.backendRes with
      | .exn => (⟨rest, db2, ev1, cs1⟩, true)
      | .ok answer =>
        let db3 := append_message db2 cd.1 "assistant" answer sc.tsAsst
        match sc.editRes with
        | .ok _ => drain scr rest (i + 1) db3 (ev1 ++ [.edited h answer]) cs1
        | .exn => (⟨rest, db3, ev1 ++ [.editFailed h answer], cs1⟩, true)

/-- The full per-user runtime state: membership of the user id in
USER_PROCESSING (bot.py line 60), the user's USER_QUEUES deque (line
59), the database, and the observable calls made so far.  visionCalls
records LM Studio vision requests (image payload, prompt, model) made
by the media handlers. -/
structure BotSt where
  processing : Bool
  queue : List Req
  db : DB
  events : List GatewayEvent
  calls : List (List Msg × String)
  visionCalls : List (String × String × String)
deriving Repr

/-- process_user_queue (bot.py lines 295-332): add the user to
USER_PROCESSING, drain the queue inside a try block, and in the finally
block discard the user from USER_PROCESSING whether or not an exception
escaped.  The Bool result records whether an exception escaped the
drain. -/
def process_user_queue (st : BotSt) (scr : Nat → IterScript) : BotSt × Bool :=
  let st1 : BotSt := { st with processing := true }
  let res := drain scr st1.queue 0 st1.db st1.events st1.calls
  (⟨false, res.1.queue, res.1.db, res.1.events, res.1.calls, st.visionCalls⟩, res.2)

/-- What the chat handler decided after enqueueing: send the courtesy
notice and return, or spawn a worker task. -/
inductive DispatchOutcome where
  | noticed
  | spawned
deriving DecidableEq, Repr

/-- The chat handler (bot.py lines 270-292): ensure the user's queue
exists, append the request, and check USER_PROCESSING.  If the user is
processing, send the courtesy notice (awaited, so it may itself raise;
either way no worker is spawned) and return; otherwise spawn a worker
task via asyncio.create_task and return.  The spawned task is not run
inside this handler; the outcome records the decision.  noticeRes is
the oracle outcome of the courtesy send. -/
def chat (st : BotSt) (req : Req) (noticeRes : CallRes Nat) : BotSt × DispatchOutcome :=
  let st1 : BotSt := { st with queue := st.queue ++ [req] }
  if st1.processing then
    match noticeRes with
    | .ok h =>
      ({ st1 with events := st1.events ++ [.sent req.chatId busyText none h] }, .noticed)
    | .exn =>
      ({ st1 with events := st1.events ++ [.sendFailed req.chatId busyText none] }, .noticed)
  else
    (st1, .spawned)

/-- Control-flow skeleton of the spawn gate for one user, used to
reason about interleavings of chat-handler invocations and worker
tasks.  queue and processing mirror USER_QUEUES[uid] and membership in
USER_PROCESSING; pending counts worker tasks created by
asyncio.create_task (bot.py line 292) that have not yet executed their
first statement; live counts workers that have executed
USER_PROCESSING.add (line 296) and not yet reached the finally block
(line 332). -/
structure Sched where
  queue : List Req
  processing : Bool
  pending : Nat
  live : Nat
deriving DecidableEq, Repr

/-- An atomic scheduling event for one user: a chat-handler invocation
(its append/check/create_task section, bot.py lines 276-292, contains
no await and runs without interleaving), the first statement of a
spawned worker (line 296, which adds the processing flag), or a
worker's exit through its finally block (line 332, which discards the
flag).  The body of the drain is abstracted away here: it touches
neither the flag nor the worker counts. -/
inductive SEvent where
  | dispatch (r : Req)
  | workerStart
  | workerExit
deriving DecidableEq, Repr

/-- True for dispatch events. -/
def SEvent.isDispatch : SEvent → Bool
  | .dispatch _ => true
  | _ => false

/-- One atomic step of the scheduling skeleton; none when the event is
not enabled (starting a worker that was never created, or exiting one
that is not live). -/
def schedStep (s : Sched) : SEvent → Option Sched
  | .dispatch r =>
    let s1 : Sched := { s with queue := s.queue ++ [r] }
    some (if s1.processing then s1 else { s1 with pending := s1.pending + 1 })
  | .workerStart =>
    match s.pending with
    | 0 => none
    | p + 1 => some { s with pending := p, live := s.live + 1, processing := true }
  | .workerExit =>
    match s.live with
    | 0 => none
    | l + 1 => some { s with live := l, processing := false }

/-- Run a sequence of scheduling events from a state. -/
def schedRun (s : Sched) : List SEvent → Option Sched
  | [] => some s
  | e :: es =>
    match schedStep s e with
    | none => none
    | some s1 => schedRun s1 es

/-- The state before any message for this user arrived. -/
def schedInit : Sched :=
  { queue := [], processing := false, pending := 0, live := 0 }

/-- The scheduling discipline under which the spawn gate works: every
dispatch for this user happens only when no spawned worker is still
waiting to run its first statement (asyncio runs ready tasks in FIFO
order, so the worker created while handling one update sets the flag
before the next update for the same user is dispatched). -/
def noDispatchWhilePending (s : Sched) : List SEvent → Bool
  | [] => true
  | e :: es =>
    (!e.isDispatch || s.pending == 0) &&
      match schedStep s e with
      | none => true
      | some s1 => noDispatchWhilePending s1 es

/-- UNSUPPORTED_STICKER_MESSAGES (bot.py lines 62-66). -/
def UNSUPPORTED_STICKER_MESSAGES : List String :=
  ["😅 This sticker is too lively for me — I only understand regular images or static stickers...",
   "🤖 Oops, I can’t recognize animated stickers yet...",
   "🎬 Looks cool! But I can’t read animated or video stickers."]

/-- The fixed prompt of the sticker handler (bot.py lines 353-358). -/
def stickerPrompt : String :=
  "I sent a sticker as a reply to your message. You can react to it. Respond while taking into account the context of the attached sticker image, which may contain anything drawn or written. You may also describe what is shown in the sticker image."

/-- The provisional text of the sticker handler (bot.py line 364). -/
def analyzingStickerText : String := "😀 Analyzing sticker..."

/-- The provisional text of the photo handler (bot.py line 392). -/
def analyzingImageText : String := "🖼 Analyzing image..."

/-- Base64 encoding of the downloaded payload (image_to_b64, bot.py
lines 196-197).  The encoding itself is an external library routine;
the payload is opaque to every claim, so it is carried through
unchanged. -/
def image_to_b64 (data : String) : String := data

/-- Oracle for one run of the sticker handler: whether the sticker is
animated or video, the index random.choice picked, and the outcomes of
the download, the rejection-notice send, the provisional send, the
vision call, and the final edit. -/
structure StickerScript where
  isAnimatedOrVideo : Bool
  noticeIdx : Nat
  noticeRes : CallRes Nat
  downloadRes : CallRes String
  sendRes : CallRes Nat
  visionRes : CallRes String
  editRes : CallRes Unit

/-- Oracle for one run of the photo handler: the optional caption and
the outcomes of the download, the provisional send, the vision call,
and the final edit. -/
structure ImageScript where
  caption : Option String
  downloadRes : CallRes String
  sendRes : CallRes Nat
  visionRes : CallRes String
  editRes : CallRes Unit

/-- sticker_chat (bot.py lines 337-373): reject animated or video
stickers with a random notice; otherwise download the sticker, read the
user's settings, send the provisional message, call the vision
endpoint, and edit the provisional message to the answer.  There is no
except clause, so a raising call ends the handler with the state as it
was at that point.  The handler never touches USER_QUEUES,
USER_PROCESSING, or any database write. -/
def sticker_chat (st : BotSt) (chatId messageId : Nat) (sc : StickerScript) : BotSt :=
  if sc.isAnimatedOrVideo then
    let txt := UNSUPPORTED_STICKER_MESSAGES.getD
      (sc.noticeIdx % UNSUPPORTED_STICKER_MESSAGES.length) ""
    match sc.noticeRes with
    | .ok h => { st with events := st.events ++ [.sent chatId txt (some messageId) h] }
    | .exn => { st with events := st.events ++ [.sendFailed chatId txt (some messageId)] }
  else
    match sc.downloadRes with
    | .exn => st
    | .ok data =>
      let b64 := image_to_b64 data
      let s := get_settings st.db
      match sc.sendRes with
      | .exn =>
        { st with events := st.events ++ [.sendFailed chatId analyzingStickerText (some messageId)] }
      | .ok h =>
        let st1 : BotSt :=
          { st with
              events := st.events ++ [.sent chatId analyzingStickerText (some messageId) h]
              visionCalls := st.visionCalls ++ [(b64, stickerPrompt, s.1)] }
        match sc.visionRes with
        | .exn => st1
        | .ok answer =>
          match sc.editRes with
          | .ok _ => { st1 with events := st1.events ++ [.edited h answer] }
          | .exn => { st1 with events := st1.events ++ [.editFailed h answer] }

/-- image_chat (bot.py lines 378-401): download the largest photo, use
the caption (or a default) as the prompt, read the user's settings,
send the provisional message, call the vision endpoint, and edit the
provisional message to the answer.  As with sticker_chat, a raising
call ends the handler, and neither the queues, the processing set, nor
the database is touched. -/
def image_chat (st : BotSt) (chatId messageId : Nat) (sc : ImageScript) : BotSt :=
  match sc.downloadRes with
  | .exn => st
  | .ok data =>
    let b64 := image_to_b64 data
    let prompt := sc.caption.getD "Describe the image"
    let s := get_settings st.db
    match sc.sendRes with
    | .exn =>
      { st with events := st.events ++ [.sendFailed chatId analyzingImageText (some messageId)] }
    | .ok h =>
      let st1 : BotSt :=
        { st with
            events := st.events ++ [.sent chatId analyzingImageText (some messageId) h]
            visionCalls := st.visionCalls ++ [(b64, prompt, s.1)] }
      match sc.visionRes with
      | .exn => st1
      | .ok answer =>
        match sc.editRes with
        | .ok _ => { st1 with events := st1.events ++ [.edited h answer] }
        | .exn => { st1 with events := st1.events ++ [.editFailed h answer] }

/-- Expected messages-table rows appended by a fully successful drain of
a queue: for each request in order, its user row followed by the
assistant row carrying the backend's answer for that iteration. -/
def fifoRows (cid : Nat) (scr : Nat → IterScript) : List Req → Nat → List Row
  | [], _ => []
  | r :: rest, i =>
    ⟨cid, "user", r.text, (scr i).tsUser⟩ ::
    ⟨cid, "assistant", (scr i).backendRes.getStr, (scr i).tsAsst⟩ ::
    fifoRows cid scr rest (i + 1)

/-- Expected gateway events of a fully successful drain: for each
request in order, its provisional send followed by the edit of that
same provisional message to that iteration's answer. -/
def fifoEvents (scr : Nat → IterScript) : List Req → Nat → List GatewayEvent
  | [], _ => []
  | r :: rest, i =>
    .sent r.chatId thinkingText (some r.messageId) (scr i).sendRes.getHandle ::
    .edited (scr i).sendRes.getHandle (scr i).backendRes.getStr ::
    fifoEvents scr rest (i + 1)

/-- Append a sequence of (role, content, ts) messages to one
conversation, in order. -/
def appendAll (db : DB) (cid : Nat) (items : List (String × String × Nat)) : DB :=
  items.foldl (fun d it => append_message d cid it.1 it.2.1 it.2.2) db

/-- Number of edit attempts (successful or failed) in an event list. -/
def countEdits (evs : List GatewayEvent) : Nat :=
  (evs.filter fun e =>
    match e with
    | .edited _ _ => true
    | .editFailed _ _ => true
    | _ => false).length

/-- Number of fresh sends (attempted or successful) of a given text in
an event list. -/
def countSendsOf (evs : List GatewayEvent) (txt : String) : Nat :=
  (evs.filter fun e =>
    match e with
    | .sent _ t _ _ => t == txt
    | .sendFailed _ t _ => t == txt
    | _ => false).length

/-- Number of rows with a given role in a messages table. -/
def countRole (rows : List Row) (role : String) : Nat :=
  (rows.filter fun r => r.role == role).length

/-- A string of a given length (for the budget examples of the history
trimmer). -/
def mkStr (n : Nat) : String := String.mk (List.replicate n 'a')

/-- A user message of a given content length. -/
def mkMsg (n : Nat) : Msg := ⟨"user", mkStr n⟩

/-- The invariant of the spawn gate under the prompt-start scheduling
discipline: the number of worker tasks for the user (created or live)
never exceeds one, and the processing flag is set exactly while a
worker is live. -/
def schedInv (s : Sched) : Prop :=
  s.pending + s.live ≤ 1 ∧ (s.processing = true ↔ s.live = 1)

/-- A first concrete request. -/
def reqA : Req := ⟨"a", 1, 100⟩

/-- A second concrete request. -/
def reqB : Req := ⟨"b", 2, 100⟩

/-- A database whose user already has an active conversation (id 1). -/
def dbActive : DB :=
  { emptyDB with activeCid := some 1, nextCid := 2, conversations := [(1, DEFAULT_MODEL)] }

/-- An idle state: flag clear, empty queue. -/
def stIdle : BotSt := ⟨false, [], dbActive, [], [], []⟩

/-- A state with one queued request. -/
def stOne : BotSt := ⟨false, [reqA], dbActive, [], [], []⟩

/-- A state with two queued requests. -/
def stTwo : BotSt := ⟨false, [reqA, reqB], dbActive, [], [], []⟩

/-- A script on which every external call succeeds and the backend
always answers with the text A. -/
def scrOK : Nat → IterScript := fun _ => ⟨5, .ok 7, .ok "A", 6, .ok ()⟩

/-- A script on which the provisional send succeeds but the backend
call raises (timeout or network failure). -/
def scrBackendErr : Nat → IterScript := fun _ => ⟨5, .ok 7, .exn, 6, .ok ()⟩

/-- A script on which the backend answers A but the final edit raises
(for example the message format is rejected). -/
def scrEditErr : Nat → IterScript := fun _ => ⟨5, .ok 7, .ok "A", 6, .exn⟩

/-! ### History trimmer -/

theorem csum_nil : csum [] = 0 := by simp [csum]

theorem csum_cons (m : Msg) (l : List Msg) :
    csum (m :: l) = m.content.length + csum l := by
  simp [csum]

theorem csum_reverse (l : List Msg) : csum l.reverse = csum l := by
  unfold csum
  rw [List.map_reverse, List.sum_reverse]

theorem csum_drop_le (l : List Msg) : ∀ m : Nat, csum (l.drop m) ≤ csum l := by
  induction l with
  | nil => intro m; simp
  | cons a t ih =>
    intro m
    cases m with
    | zero => simp
    | succ m =>
      calc csum (t.drop m) ≤ csum t := ih m
        _ ≤ csum (a :: t) := by rw [csum_cons]; exact Nat.le_add_left _ _

theorem csum_drop_mono (l : List Msg) {i j : Nat} (h : i ≤ j) :
    csum (l.drop j) ≤ csum (l.drop i) := by
  have h2 : (l.drop i).drop (j - i) = l.drop j := by
    rw [List.drop_drop]
    congr 1
    omega
  rw [← h2]
  exact csum_drop_le _ _

theorem trim_go_spec (b : Nat) :
    ∀ (l : List Msg) (t : Nat), t ≤ b →
      ∃ k, k ≤ l.length ∧ trim_go b l t = l.take k ∧ t + csum (l.take k) ≤ b ∧
        (k < l.length → b < t + csum (l.take (k + 1))) := by
  intro l
  induction l with
  | nil =>
    intro t ht
    exact ⟨0, by simp, by simp [trim_go], by simpa [csum] using ht, by simp⟩
  | cons m rest ih =>
    intro t ht
    by_cases hgt : t + m.content.length > b
    · refine ⟨0, by simp, ?_, by simpa [csum] using ht, ?_⟩
      · simp only [trim_go, if_pos hgt, List.take_zero]
      · intro _
        simpa [csum_cons] using hgt
    · push_neg at hgt
      obtain ⟨k, hk, heq, hsum, hbound⟩ := ih (t + m.content.length) hgt
      refine ⟨k + 1, by simpa using hk, ?_, ?_, ?_⟩
      · simp only [trim_go, if_neg (by omega : ¬ t + m.content.length > b), heq,
          List.take_succ_cons]
      · rw [List.take_succ_cons, csum_cons]
        omega
      · intro hlt
        have hklt : k < rest.length := by simpa using hlt
        have := hbound hklt
        rw [List.take_succ_cons, csum_cons]
        omega

/-- C4: trim_messages returns the longest suffix of the history whose
cumulative content length does not exceed the budget, in original
order: its result is a drop of the input, its total length is within
the budget, and every strictly longer suffix overruns the budget. -/
theorem trim_messages_longest_suffix (msgs : List Msg) (b : Nat) :
    ∃ j, j ≤ msgs.length ∧ trim_messages msgs b = msgs.drop j ∧
      csum (msgs.drop j) ≤ b ∧ ∀ i, i < j → b < csum (msgs.drop i) := by
  obtain ⟨k, hk, heq, hsum, hbound⟩ := trim_go_spec b msgs.reverse 0 (Nat.zero_le b)
  rw [List.length_reverse] at hk
  have hrt : (msgs.reverse.take k).reverse = msgs.drop (msgs.length - k) := by
    rw [← List.rtake_eq_reverse_take_reverse]
    rfl
  refine ⟨msgs.length - k, by omega, ?_, ?_, ?_⟩
  · rw [trim_messages, heq, hrt]
  · have : csum (msgs.reverse.take k) = csum (msgs.drop (msgs.length - k)) := by
      rw [← hrt, csum_reverse]
    omega
  · intro i hi
    have hkl : k < msgs.length := by omega
    have hb := hbound (by simpa [List.length_reverse] using hkl)
    have hrt1 : (msgs.reverse.take (k + 1)).reverse = msgs.drop (msgs.length - (k + 1)) := by
      rw [← List.rtake_eq_reverse_take_reverse]
      rfl
    have hcs : csum (msgs.reverse.take (k + 1)) = csum (msgs.drop (msgs.length - (k + 1))) := by
      rw [← hrt1, csum_reverse]
    have hmono : csum (msgs.drop (msgs.length - (k + 1))) ≤ csum (msgs.drop i) := by
      exact csum_drop_mono msgs (by omega)
    omega

/-- C4 witness: the longest-suffix property evaluated on a concrete
history. -/
theorem trim_messages_longest_suffix_witness :
    ∃ j, j ≤ ([⟨"user", "abc"⟩, ⟨"assistant", "defgh"⟩] : List Msg).length ∧
      trim_messages [⟨"user", "abc"⟩, ⟨"assistant", "defgh"⟩] 6 =
        ([⟨"user", "abc"⟩, ⟨"assistant", "defgh"⟩] : List Msg).drop j ∧
      csum (([⟨"user", "abc"⟩, ⟨"assistant", "defgh"⟩] : List Msg).drop j) ≤ 6 ∧
      ∀ i, i < j → 6 < csum (([⟨"user", "abc"⟩, ⟨"assistant", "defgh"⟩] : List Msg).drop i) :=
  trim_messages_longest_suffix [⟨"user", "abc"⟩, ⟨"assistant", "defgh"⟩] 6

theorem mkStr_length (n : Nat) : (mkStr n).length = n := by
  simp [mkStr, String.length]

theorem mkMsg_content_length (n : Nat) : (mkMsg n).content.length = n := by
  simp [mkMsg, mkStr_length]

theorem trim_example_eval :
    trim_messages [mkMsg 3000, mkMsg 4000, mkMsg 5000, mkMsg 6000] 12000 =
      [mkMsg 5000, mkMsg 6000] := by
  simp [trim_messages, trim_go, mkMsg_content_length]

/-- C5 counterexample: on content lengths 3000, 4000, 5000, 6000 with
budget 12000, trim_messages does not return the three newest messages
(their 15000 characters exceed the budget); it keeps only the newest
two. -/
theorem trim_example_counterexample :
    trim_messages [mkMsg 3000, mkMsg 4000, mkMsg 5000, mkMsg 6000] 12000 ≠
        [mkMsg 4000, mkMsg 5000, mkMsg 6000] ∧
      12000 < csum [mkMsg 4000, mkMsg 5000, mkMsg 6000] := by
  constructor
  · rw [trim_example_eval]
    intro h
    have hlen := congrArg List.length h
    simp at hlen
  · simp [csum_cons, csum_nil, mkMsg_content_length]

/-- C5 amended: on content lengths 3000, 4000, 5000, 6000 with budget
12000, trim_messages keeps exactly the newest two messages (5000 and
6000, totalling 11000), in original order. -/
theorem trim_example_keeps_last_two :
    trim_messages [mkMsg 3000, mkMsg 4000, mkMsg 5000, mkMsg 6000] 12000 =
        [mkMsg 5000, mkMsg 6000] ∧
      csum [mkMsg 5000, mkMsg 6000] ≤ 12000 := by
  refine ⟨trim_example_eval, ?_⟩
  simp [csum_cons, csum_nil, mkMsg_content_length]

/-! ### Worker flag release -/

/-- C2: whatever the queue contents and whatever the outcomes of every
external call made by the worker (success, backend error, gateway
error on the provisional send or the final edit, at any iteration),
after process_user_queue returns the user is not in USER_PROCESSING:
the finally block releases the flag on every exit path. -/
theorem worker_always_releases_flag (st : BotSt) (scr : Nat → IterScript) :
    (process_user_queue st scr).1.processing = false := rfl

/-! ### Dispatcher decision -/

/-- C9 counterexample: with the processing flag set and an empty queue
(the worker has popped the last request and is still handling it), the
chat handler sends the courtesy notice and spawns no worker even
though the queue was empty before this enqueue; the decision is taken
on the flag, not on prior queue non-emptiness. -/
theorem notice_with_empty_queue_counterexample :
    (chat ⟨true, [], emptyDB, [], [], []⟩ reqA (.ok 5)).2 = DispatchOutcome.noticed ∧
      (⟨true, [], emptyDB, [], [], []⟩ : BotSt).queue = [] := by
  constructor <;> rfl

/-- C9 amended: the chat handler sends the courtesy notice and spawns
no worker exactly when the user's processing flag is set at the time
of the check; otherwise it spawns exactly one worker.  In both cases
the request is appended to the queue and the database is untouched,
and the dispatch step itself never runs the worker body. -/
theorem dispatch_decision_by_flag (st : BotSt) (req : Req) (noticeRes : CallRes Nat) :
    ((chat st req noticeRes).2 = DispatchOutcome.noticed ↔ st.processing = true) ∧
      (chat st req noticeRes).1.queue = st.queue ++ [req] ∧
      (chat st req noticeRes).1.db = st.db ∧
      (st.processing = false →
        chat st req noticeRes = ({ st with queue := st.queue ++ [req] }, DispatchOutcome.spawned)) := by
  cases hp : st.processing <;> cases noticeRes <;> simp [chat, hp]

/-- C9 witness: the amended dispatcher property evaluated at a state
with the flag clear. -/
theorem dispatch_decision_by_flag_witness :
    ((chat ⟨false, [], emptyDB, [], [], []⟩ reqA (.ok 5)).2 = DispatchOutcome.noticed ↔
        (⟨false, [], emptyDB, [], [], []⟩ : BotSt).processing = true) ∧
      (chat ⟨false, [], emptyDB, [], [], []⟩ reqA (.ok 5)).1.queue =
        (⟨false, [], emptyDB, [], [], []⟩ : BotSt).queue ++ [reqA] ∧
      (chat ⟨false, [], emptyDB, [], [], []⟩ reqA (.ok 5)).1.db =
        (⟨false, [], emptyDB, [], [], []⟩ : BotSt).db ∧
      ((⟨false, [], emptyDB, [], [], []⟩ : BotSt).processing = false →
        chat ⟨false, [], emptyDB, [], [], []⟩ reqA (.ok 5) =
          ({ (⟨false, [], emptyDB, [], [], []⟩ : BotSt) with
              queue := (⟨false, [], emptyDB, [], [], []⟩ : BotSt).queue ++ [reqA] },
            DispatchOutcome.spawned)) :=
  dispatch_decision_by_flag ⟨false, [], emptyDB, [], [], []⟩ reqA (.ok 5)

/-! ### Spawn gate -/

/-- C1 counterexample: a single dispatch that decides to spawn leaves
the processing flag still false (the flag is set only by the spawned
worker's first statement, not by the enqueue), and two dispatches for
the same user arriving before either spawned worker has started both
decide to spawn, after which two workers are live at once. -/
theorem dispatch_double_spawn_counterexample :
    schedRun schedInit [.dispatch reqA] = some ⟨[reqA], false, 1, 0⟩ ∧
      schedRun schedInit [.dispatch reqA, .dispatch reqB, .workerStart, .workerStart] =
        some ⟨[reqA, reqB], true, 0, 2⟩ ∧
      ¬ (⟨[reqA, reqB], true, 0, 2⟩ : Sched).live ≤ 1 := by
  refine ⟨rfl, rfl, by decide⟩

theorem schedStep_inv (s s' : Sched) (e : SEvent)
    (hd : e.isDispatch = true → s.pending = 0)
    (hinv : schedInv s) (hstep : schedStep s e = some s') : schedInv s' := by
  obtain ⟨h1, h2⟩ := hinv
  cases e with
  | dispatch r =>
    have hp : s.pending = 0 := hd rfl
    simp only [schedStep] at hstep
    split at hstep
    · injection hstep with hstep
      subst hstep
      exact ⟨h1, h2⟩
    · next hproc =>
      have hpf : s.processing = false := by simpa using hproc
      injection hstep with hstep
      subst hstep
      have hl0 : s.live = 0 := by
        cases hsl : s.live with
        | zero => rfl
        | succ l =>
          have hl1 : s.live = 1 := by omega
          have := h2.mpr hl1
          rw [hpf] at this
          exact absurd this (by simp)
      constructor
      · show s.pending + 1 + s.live ≤ 1
        omega
      · show s.processing = true ↔ s.live = 1
        rw [hpf, hl0]
        simp
  | workerStart =>
    simp only [schedStep] at hstep
    cases hsp : s.pending with
    | zero => rw [hsp] at hstep; simp at hstep
    | succ p =>
      rw [hsp] at hstep
      injection hstep with hstep
      subst hstep
      rw [hsp] at h1
      constructor
      · show p + (s.live + 1) ≤ 1
        omega
      · show true = true ↔ s.live + 1 = 1
        simp
        omega
  | workerExit =>
    simp only [schedStep] at hstep
    cases hsl : s.live with
    | zero => rw [hsl] at hstep; simp at hstep
    | succ l =>
      rw [hsl] at hstep
      injection hstep with hstep
      subst hstep
      rw [hsl] at h1
      constructor
      · show s.pending + l ≤ 1
        omega
      · show false = true ↔ l = 1
        simp
        omega

theorem schedRun_inv :
    ∀ (tr : List SEvent) (s s' : Sched), schedInv s →
      noDispatchWhilePending s tr = true → schedRun s tr = some s' → schedInv s' := by
  intro tr
  induction tr with
  | nil =>
    intro s s' hinv _ hrun
    simp only [schedRun] at hrun
    injection hrun with hrun
    subst hrun
    exact hinv
  | cons e es ih =>
    intro s s' hinv hgood hrun
    simp only [noDispatchWhilePending, Bool.and_eq_true] at hgood
    obtain ⟨hd, hrest⟩ := hgood
    simp only [schedRun] at hrun
    cases hstep : schedStep s e with
    | none => rw [hstep] at hrun; simp at hrun
    | some s1 =>
      rw [hstep] at hrun hrest
      have hd' : e.isDispatch = true → s.pending = 0 := by
        intro hde
        rw [hde] at hd
        simpa using hd
      exact ih s1 s' (schedStep_inv s s1 e hd' hinv hstep) hrest hrun

/-- C1 amended: the enqueue step of the chat handler does not set the
processing flag (it is set by the spawned worker's first statement), so
several concurrent dispatches can each decide to spawn; but under the
scheduling discipline in which every spawned worker runs its first
statement before the next message of the same user is dispatched (the
FIFO behaviour of the asyncio loop used by the bot), at most one worker
for the user exists at any instant along the whole run. -/
theorem single_flight_under_prompt_start (tr : List SEvent) (s' : Sched)
    (hgood : noDispatchWhilePending schedInit tr = true)
    (hrun : schedRun schedInit tr = some s') :
    s'.pending + s'.live ≤ 1 :=
  (schedRun_inv tr schedInit s' ⟨by simp [schedInit], by simp [schedInit]⟩ hgood hrun).1

/-- C1 witness: a run with two messages in which the first worker
starts before the second dispatch and exits afterwards; the bound
holds at its final state. -/
theorem single_flight_under_prompt_start_witness :
    noDispatchWhilePending schedInit
        [.dispatch reqA, .workerStart, .dispatch reqB, .workerExit] = true ∧
      schedRun schedInit [.dispatch reqA, .workerStart, .dispatch reqB, .workerExit] =
        some ⟨[reqA, reqB], false, 0, 0⟩ ∧
      (⟨[reqA, reqB], false, 0, 0⟩ : Sched).pending + (⟨[reqA, reqB], false, 0, 0⟩ : Sched).live ≤ 1 :=
  ⟨by decide, by decide,
    single_flight_under_prompt_start
      [.dispatch reqA, .workerStart, .dispatch reqB, .workerExit]
      ⟨[reqA, reqB], false, 0, 0⟩ (by decide) (by decide)⟩

/-! ### Worker drain -/

theorem isOk_exists {α : Type} {c : CallRes α} (h : c.isOk = true) : ∃ v, c = .ok v := by
  cases c with
  | ok v => exact ⟨v, rfl⟩
  | exn => simp [CallRes.isOk] at h

theorem resolve_cid_active (db : DB) :
    (resolve_cid db).2.activeCid = some (resolve_cid db).1 := by
  cases h : db.activeCid with
  | none => simp [resolve_cid, get_settings, h, create_conversation, set_active_conversation]
  | some c => simp [resolve_cid, get_settings, h]

/-- C3 counterexample: with two queued requests and a backend failure
on the first, the worker leaves the second request unprocessed in the
queue, attempts no edit at all (in particular no error notice replaces
the provisional acknowledgment), persists no assistant message, and
exits by exception. -/
theorem backend_error_abort_counterexample :
    (process_user_queue stTwo scrBackendErr).1.queue = [reqB] ∧
      countEdits (process_user_queue stTwo scrBackendErr).1.events = 0 ∧
      countRole (process_user_queue stTwo scrBackendErr).1.db.messages "assistant" = 0 ∧
      (process_user_queue stTwo scrBackendErr).2 = true := by
  decide

/-- C3 amended: on a Completion Client failure for the queue's head
request, no assistant message is persisted for it, but the worker does
not edit the provisional acknowledgment and does not continue: the
exception aborts the drain, leaving every subsequently queued request
unprocessed in the queue; the processing flag is still released. -/
theorem worker_backend_error_aborts (st : BotSt) (scr : Nat → IterScript) (r : Req)
    (rest : List Req) (h : Nat) (cid : Nat) (db1 : DB)
    (hq : st.queue = r :: rest)
    (hres : resolve_cid st.db = (cid, db1))
    (hsend : (scr 0).sendRes = .ok h)
    (hback : (scr 0).backendRes = .exn) :
    process_user_queue st scr =
      (⟨false, rest,
        append_message db1 cid "user" r.text (scr 0).tsUser,
        st.events ++ [.sent r.chatId thinkingText (some r.messageId) h],
        st.calls ++ [(trim_messages
          (get_messages (append_message db1 cid "user" r.text (scr 0).tsUser) cid)
          TOKEN_THRESHOLD, (get_settings st.db).1)],
        st.visionCalls⟩, true) := by
  simp [process_user_queue, drain, hq, hres, hsend, hback]

/-- C3 witness: the amended backend-failure behaviour evaluated on a
state with two queued requests. -/
theorem worker_backend_error_aborts_witness :
    stTwo.queue = reqA :: [reqB] ∧
      resolve_cid stTwo.db = (1, stTwo.db) ∧
      (scrBackendErr 0).sendRes = .ok 7 ∧
      (scrBackendErr 0).backendRes = .exn ∧
      process_user_queue stTwo scrBackendErr =
        (⟨false, [reqB],
          append_message stTwo.db 1 "user" reqA.text (scrBackendErr 0).tsUser,
          stTwo.events ++ [.sent reqA.chatId thinkingText (some reqA.messageId) 7],
          stTwo.calls ++ [(trim_messages
            (get_messages (append_message stTwo.db 1 "user" reqA.text (scrBackendErr 0).tsUser) 1)
            TOKEN_THRESHOLD, (get_settings stTwo.db).1)],
          stTwo.visionCalls⟩, true) :=
  ⟨rfl, by decide, rfl, rfl,
    worker_backend_error_aborts stTwo scrBackendErr reqA [reqB] 7 1 stTwo.db rfl
      (by decide) rfl rfl⟩

/-- C8 counterexample: when the edit of the provisional acknowledgment
fails after a successful completion, the worker sends no fresh message
with the answer (there is no fallback); the exception aborts the drain,
leaving the next queued request unprocessed. -/
theorem edit_fail_no_fallback_counterexample :
    (process_user_queue stTwo scrEditErr).1.events =
        [.sent reqA.chatId thinkingText (some reqA.messageId) 7, .editFailed 7 "A"] ∧
      countSendsOf (process_user_queue stTwo scrEditErr).1.events "A" = 0 ∧
      (process_user_queue stTwo scrEditErr).2 = true ∧
      (process_user_queue stTwo scrEditErr).1.queue = [reqB] := by
  decide

/-- C8 amended: on success the worker persists the assistant answer
and then edits the provisional acknowledgment to it; if that edit
fails there is no fallback send of a fresh message — the exception
aborts the worker, leaving the remaining queue unprocessed (the
assistant answer stays persisted and the processing flag is still
released). -/
theorem edit_fail_aborts_worker (st : BotSt) (scr : Nat → IterScript) (r : Req)
    (rest : List Req) (h : Nat) (a : String) (cid : Nat) (db1 : DB)
    (hq : st.queue = r :: rest)
    (hres : resolve_cid st.db = (cid, db1))
    (hsend : (scr 0).sendRes = .ok h)
    (hback : (scr 0).backendRes = .ok a)
    (hedit : (scr 0).editRes = .exn) :
    process_user_queue st scr =
      (⟨false, rest,
        append_message (append_message db1 cid "user" r.text (scr 0).tsUser)
          cid "assistant" a (scr 0).tsAsst,
        st.events ++ [.sent r.chatId thinkingText (some r.messageId) h, .editFailed h a],
        st.calls ++ [(trim_messages
          (get_messages (append_message db1 cid "user" r.text (scr 0).tsUser) cid)
          TOKEN_THRESHOLD, (get_settings st.db).1)],
        st.visionCalls⟩, true) := by
  simp [process_user_queue, drain, hq, hres, hsend, hback, hedit]

/-- C8 witness: the amended edit-failure behaviour evaluated on a
state with two queued requests. -/
theorem edit_fail_aborts_worker_witness :
    stTwo.queue = reqA :: [reqB] ∧
      resolve_cid stTwo.db = (1, stTwo.db) ∧
      (scrEditErr 0).sendRes = .ok 7 ∧
      (scrEditErr 0).backendRes = .ok "A" ∧
      (scrEditErr 0).editRes = .exn ∧
      process_user_queue stTwo scrEditErr =
        (⟨false, [reqB],
          append_message (append_message stTwo.db 1 "user" reqA.text (scrEditErr 0).tsUser)
            1 "assistant" "A" (scrEditErr 0).tsAsst,
          stTwo.events ++ [.sent reqA.chatId thinkingText (some reqA.messageId) 7,
            .editFailed 7 "A"],
          stTwo.calls ++ [(trim_messages
            (get_messages (append_message stTwo.db 1 "user" reqA.text (scrEditErr 0).tsUser) 1)
            TOKEN_THRESHOLD, (get_settings stTwo.db).1)],
          stTwo.visionCalls⟩, true) :=
  ⟨rfl, by decide, rfl, rfl, rfl,
    edit_fail_aborts_worker stTwo scrEditErr reqA [reqB] 7 "A" 1 stTwo.db rfl
      (by decide) rfl rfl rfl⟩

theorem drain_step_ok (scr : Nat → IterScript) (i : Nat) (r : Req) (rest : List Req)
    (db db1 : DB) (ev : List GatewayEvent) (cs : List (List Msg × String))
    (h : Nat) (a : String) (cid : Nat)
    (hres : resolve_cid db = (cid, db1))
    (hsend : (scr i).sendRes = .ok h)
    (hback : (scr i).backendRes = .ok a)
    (hedit : (scr i).editRes = .ok ()) :
    drain scr (r :: rest) i db ev cs =
      drain scr rest (i + 1)
        (append_message (append_message db1 cid "user" r.text (scr i).tsUser)
          cid "assistant" a (scr i).tsAsst)
        (ev ++ [.sent r.chatId thinkingText (some r.messageId) h, .edited h a])
        (cs ++ [(trim_messages
          (get_messages (append_message db1 cid "user" r.text (scr i).tsUser) cid)
          TOKEN_THRESHOLD, (get_settings db).1)]) := by
  conv_lhs => rw [drain]
  simp [hres, hsend, hback, hedit, List.append_assoc]

theorem drain_all_ok (scr : Nat → IterScript) (cid : Nat) :
    ∀ (q : List Req) (i : Nat) (db : DB) (ev : List GatewayEvent)
      (cs : List (List Msg × String)),
      db.activeCid = some cid →
      (∀ j, j < q.length → (scr (i + j)).sendRes.isOk = true ∧
        (scr (i + j)).backendRes.isOk = true ∧ (scr (i + j)).editRes = .ok ()) →
      ∃ cs', drain scr q i db ev cs =
        (⟨[], { db with messages := db.messages ++ fifoRows cid scr q i },
          ev ++ fifoEvents scr q i, cs'⟩, false) := by
  intro q
  induction q with
  | nil =>
    intro i db ev cs hact hok
    exact ⟨cs, by simp [drain, fifoRows, fifoEvents]⟩
  | cons r rest ih =>
    intro i db ev cs hact hok
    have h0 := hok 0 (by simp)
    rw [Nat.add_zero] at h0
    obtain ⟨hs0, hb0, he0⟩ := h0
    obtain ⟨h, hsend⟩ := isOk_exists hs0
    obtain ⟨a, hback⟩ := isOk_exists hb0
    have hres : resolve_cid db = (cid, db) := by
      simp [resolve_cid, get_settings, hact]
    rw [drain_step_ok scr i r rest db db ev cs h a cid hres hsend hback he0]
    have hact2 : (append_message (append_message db cid "user" r.text (scr i).tsUser)
        cid "assistant" a (scr i).tsAsst).activeCid = some cid := by
      simp [append_message, hact]
    have hok' : ∀ j, j < rest.length → (scr (i + 1 + j)).sendRes.isOk = true ∧
        (scr (i + 1 + j)).backendRes.isOk = true ∧ (scr (i + 1 + j)).editRes = .ok () := by
      intro j hj
      have hnext := hok (j + 1) (by simp; omega)
      have harith : i + (j + 1) = i + 1 + j := by omega
      rw [harith] at hnext
      exact hnext
    obtain ⟨cs', hrec⟩ := ih (i + 1)
      (append_message (append_message db cid "user" r.text (scr i).tsUser)
        cid "assistant" a (scr i).tsAsst)
      (ev ++ [.sent r.chatId thinkingText (some r.messageId) h, .edited h a])
      (cs ++ [(trim_messages
        (get_messages (append_message db cid "user" r.text (scr i).tsUser) cid)
        TOKEN_THRESHOLD, (get_settings db).1)])
      hact2 hok'
    refine ⟨cs', ?_⟩
    rw [hrec]
    simp [fifoRows, fifoEvents, hsend, hback, CallRes.getStr, CallRes.getHandle,
      append_message, List.append_assoc]

/-- C7: for every state and request the chat handler appends the
request to the user's queue (messages arriving while a worker is
active are queued, never dropped), and a worker whose external calls
all succeed drains a non-empty queue completely, appending to the
conversation exactly, for each queued request in submission order, its
user message followed by its assistant answer, and emitting for each
request its provisional send followed by the edit carrying that
request's answer — each request fully processed before the next
begins. -/
theorem enqueue_and_fifo_drain :
    (∀ (st : BotSt) (req : Req) (noticeRes : CallRes Nat),
        (chat st req noticeRes).1.queue = st.queue ++ [req]) ∧
      (∀ (st : BotSt) (scr : Nat → IterScript) (r : Req) (rest : List Req)
          (cid : Nat) (db1 : DB),
        st.queue = r :: rest →
        resolve_cid st.db = (cid, db1) →
        (∀ j, j < st.queue.length → (scr j).sendRes.isOk = true ∧
          (scr j).backendRes.isOk = true ∧ (scr j).editRes = .ok ()) →
        ∃ cs', process_user_queue st scr =
          (⟨false, [],
            { db1 with messages := db1.messages ++ fifoRows cid scr (r :: rest) 0 },
            st.events ++ fifoEvents scr (r :: rest) 0, cs', st.visionCalls⟩, false)) := by
  constructor
  · intro st req noticeRes
    cases hp : st.processing <;> cases noticeRes <;> simp [chat, hp]
  · intro st scr r rest cid db1 hq hres hok
    rw [hq] at hok
    have hact1 : db1.activeCid = some cid := by
      have hra := resolve_cid_active st.db
      rw [hres] at hra
      simpa using hra
    obtain ⟨hs0, hb0, he0⟩ := hok 0 (by simp)
    obtain ⟨h, hsend⟩ := isOk_exists hs0
    obtain ⟨a, hback⟩ := isOk_exists hb0
    have hact2 : (append_message (append_message db1 cid "user" r.text (scr 0).tsUser)
        cid "assistant" a (scr 0).tsAsst).activeCid = some cid := by
      simp [append_message, hact1]
    have hok' : ∀ j, j < rest.length → (scr (1 + j)).sendRes.isOk = true ∧
        (scr (1 + j)).backendRes.isOk = true ∧ (scr (1 + j)).editRes = .ok () := by
      intro j hj
      have hnext := hok (j + 1) (by simp; omega)
      have harith : j + 1 = 1 + j := by omega
      rw [harith] at hnext
      exact hnext
    obtain ⟨cs', hrec⟩ := drain_all_ok scr cid rest 1
      (append_message (append_message db1 cid "user" r.text (scr 0).tsUser)
        cid "assistant" a (scr 0).tsAsst)
      (st.events ++ [.sent r.chatId thinkingText (some r.messageId) h, .edited h a])
      (st.calls ++ [(trim_messages
        (get_messages (append_message db1 cid "user" r.text (scr 0).tsUser) cid)
        TOKEN_THRESHOLD, (get_settings st.db).1)])
      hact2 hok'
    refine ⟨cs', ?_⟩
    simp only [process_user_queue]
    rw [hq]
    rw [drain_step_ok scr 0 r rest st.db db1 st.events st.calls h a cid hres hsend hback he0]
    simp only [Nat.zero_add]
    rw [hrec]
    simp [fifoRows, fifoEvents, hsend, hback, CallRes.getStr, CallRes.getHandle,
      append_message, List.append_assoc]

/-- C7 witness: the enqueue-append fact at an idle state, and a full
successful drain of a one-request queue. -/
theorem enqueue_and_fifo_drain_witness :
    (chat stIdle reqA (.ok 5)).1.queue = stIdle.queue ++ [reqA] ∧
      ∃ cs', process_user_queue stOne scrOK =
        (⟨false, [],
          { dbActive with messages := dbActive.messages ++ fifoRows 1 scrOK [reqA] 0 },
          stOne.events ++ fifoEvents scrOK [reqA] 0, cs', stOne.visionCalls⟩, false) :=
  ⟨enqueue_and_fifo_drain.1 stIdle reqA (.ok 5),
    enqueue_and_fifo_drain.2 stOne scrOK reqA [] 1 dbActive rfl (by decide) (by decide)⟩

/-! ### Conversation store round-trip -/

/-- C6 counterexample: two messages appended with the same coarse
timestamp.  The swapped order is also a valid result of ORDER BY ts
(it is a ts-sorted permutation of the conversation's rows), and it
differs from insertion order: the fetch does not guarantee insertion
order under timestamp collisions. -/
theorem fetch_ts_collision_counterexample :
    get_messages_spec (append_message (append_message emptyDB 1 "user" "a" 5) 1 "user" "b" 5) 1
        [⟨"user", "b"⟩, ⟨"user", "a"⟩] ∧
      ([⟨"user", "b"⟩, ⟨"user", "a"⟩] : List Msg) ≠ [⟨"user", "a"⟩, ⟨"user", "b"⟩] := by
  constructor
  · refine ⟨[⟨1, "user", "b", 5⟩, ⟨1, "user", "a", 5⟩], ?_, ?_, rfl⟩
    · have hf : filterConv (append_message (append_message emptyDB 1 "user" "a" 5) 1 "user" "b" 5) 1 =
          [⟨1, "user", "a", 5⟩, ⟨1, "user", "b", 5⟩] := by decide
      rw [hf]
      exact List.Perm.swap (⟨1, "user", "a", 5⟩ : Row) (⟨1, "user", "b", 5⟩ : Row) []
    · unfold tsSorted
      decide
  · decide

theorem sorted_perm_eq_of_strict (l₁ l₂ : List Row)
    (hp : l₁.Perm l₂)
    (h1 : l₁.Pairwise fun a b => a.ts < b.ts)
    (h2 : l₂.Pairwise fun a b => a.ts ≤ b.ts) : l₂ = l₁ := by
  haveI : IsAntisymm Row (fun a b => a.ts < b.ts) :=
    ⟨fun a b hab hba => absurd hba (by omega)⟩
  have hnd1 : (l₁.map Row.ts).Nodup := by
    rw [List.Nodup, List.pairwise_map]
    exact h1.imp fun hab => Nat.ne_of_lt hab
  have hnd2 : (l₂.map Row.ts).Nodup := (hp.map Row.ts).nodup_iff.mp hnd1
  have hne : l₂.Pairwise fun a b => a.ts ≠ b.ts := by
    rw [List.Nodup, List.pairwise_map] at hnd2
    exact hnd2
  have h2' : l₂.Pairwise fun a b => a.ts < b.ts :=
    (h2.and hne).imp fun hab => lt_of_le_of_ne hab.1 hab.2
  exact (List.eq_of_perm_of_sorted hp h1 h2').symm

theorem appendAll_messages (cid : Nat) (items : List (String × String × Nat)) :
    ∀ db : DB, (appendAll db cid items).messages =
      db.messages ++ items.map fun it => (⟨cid, it.1, it.2.1, it.2.2⟩ : Row) := by
  induction items with
  | nil => intro db; simp [appendAll]
  | cons it rest ih =>
    intro db
    show (appendAll (append_message db cid it.1 it.2.1 it.2.2) cid rest).messages = _
    rw [ih]
    simp [append_message, List.append_assoc]

/-- C6 amended: fetching a conversation returns some ts-sorted
permutation of its appended messages; when the appended timestamps are
strictly increasing (no collisions) every valid fetch result equals
the messages in insertion order.  With colliding timestamps the
relative order of the equal-timestamp messages is not guaranteed. -/
theorem fetch_roundtrip_strict_ts (items : List (String × String × Nat)) (cid : Nat)
    (out : List Msg)
    (hstrict : (items.map fun it => it.2.2).Pairwise (· < ·))
    (hout : get_messages_spec (appendAll emptyDB cid items) cid out) :
    out = items.map fun it => ⟨it.1, it.2.1⟩ := by
  have hfilter : filterConv (appendAll emptyDB cid items) cid =
      items.map fun it => (⟨cid, it.1, it.2.1, it.2.2⟩ : Row) := by
    rw [filterConv, appendAll_messages cid items emptyDB]
    show ((items.map fun it => (⟨cid, it.1, it.2.1, it.2.2⟩ : Row)).filter
      fun r => r.cid == cid) = _
    apply List.filter_eq_self.mpr
    intro a ha
    obtain ⟨it, _, hit⟩ := List.mem_map.mp ha
    rw [← hit]
    simp
  obtain ⟨rows, hperm, hsort, hout_eq⟩ := hout
  have htable_strict : (filterConv (appendAll emptyDB cid items) cid).Pairwise
      fun a b => a.ts < b.ts := by
    rw [hfilter, List.pairwise_map]
    rw [List.pairwise_map] at hstrict
    exact hstrict
  have hrows : rows = filterConv (appendAll emptyDB cid items) cid :=
    sorted_perm_eq_of_strict (filterConv (appendAll emptyDB cid items) cid) rows
      hperm.symm htable_strict hsort
  rw [hout_eq, hrows, hfilter, List.map_map]
  rfl

/-- C6 witness: a two-message conversation with strictly increasing
timestamps round-trips to insertion order. -/
theorem fetch_roundtrip_strict_ts_witness :
    ((([("user", "hi", 1), ("assistant", "yo", 2)] :
        List (String × String × Nat)).map fun it => it.2.2).Pairwise (· < ·)) ∧
      get_messages_spec (appendAll emptyDB 1 [("user", "hi", 1), ("assistant", "yo", 2)]) 1
        [⟨"user", "hi"⟩, ⟨"assistant", "yo"⟩] ∧
      ([⟨"user", "hi"⟩, ⟨"assistant", "yo"⟩] : List Msg) =
        ([("user", "hi", 1), ("assistant", "yo", 2)] :
          List (String × String × Nat)).map fun it => ⟨it.1, it.2.1⟩ := by
  have hstrict : ((([("user", "hi", 1), ("assistant", "yo", 2)] :
      List (String × String × Nat)).map fun it => it.2.2).Pairwise (· < ·)) := by
    decide
  have hout : get_messages_spec
      (appendAll emptyDB 1 [("user", "hi", 1), ("assistant", "yo", 2)]) 1
      [⟨"user", "hi"⟩, ⟨"assistant", "yo"⟩] := by
    refine ⟨[⟨1, "user", "hi", 1⟩, ⟨1, "assistant", "yo", 2⟩], ?_, ?_, rfl⟩
    · have hf : filterConv (appendAll emptyDB 1 [("user", "hi", 1), ("assistant", "yo", 2)]) 1 =
          [⟨1, "user", "hi", 1⟩, ⟨1, "assistant", "yo", 2⟩] := by decide
      rw [hf]
    · unfold tsSorted
      decide
  exact ⟨hstrict, hout, fetch_roundtrip_strict_ts _ _ _ hstrict hout⟩

/-! ### Media handlers leave the queue core untouched -/

/-- C10: for every state and every oracle outcome (animated rejection,
download failure, send failure, vision failure, edit failure, or full
success), the sticker and photo handlers leave the user's queue, the
processing flag, the whole database (hence the persisted conversation
history), and the list of chat-completion calls unchanged: they bypass
the per-user queue machinery entirely. -/
theorem media_handlers_frame :
    (∀ (st : BotSt) (chatId messageId : Nat) (sc : StickerScript),
        (sticker_chat st chatId messageId sc).queue = st.queue ∧
        (sticker_chat st chatId messageId sc).processing = st.processing ∧
        (sticker_chat st chatId messageId sc).db = st.db ∧
        (sticker_chat st chatId messageId sc).calls = st.calls) ∧
      (∀ (st : BotSt) (chatId messageId : Nat) (sc : ImageScript),
        (image_chat st chatId messageId sc).queue = st.queue ∧
        (image_chat st chatId messageId sc).processing = st.processing ∧
        (image_chat st chatId messageId sc).db = st.db ∧
        (image_chat st chatId messageId sc).calls = st.calls) := by
  constructor
  · intro st chatId messageId sc
    cases hA : sc.isAnimatedOrVideo <;>
      cases hN : sc.noticeRes <;>
      cases hD : sc.downloadRes <;>
      cases hS : sc.sendRes <;>
      cases hV : sc.visionRes <;>
      cases hE : sc.editRes <;>
      simp [sticker_chat, hA, hN, hD, hS, hV, hE]
  · intro st chatId messageId sc
    cases hD : sc.downloadRes <;>
      cases hS : sc.sendRes <;>
      cases hV : sc.visionRes <;>
      cases hE : sc.editRes <;>
      simp [image_chat, hD, hS, hV, hE]

end Bot



